import Mathlib

/- Verification of the rocq-bootstrap installer against its design document.

   Shallow embedding: the Go sources (linux/macos/windows installer pipelines)
   and the shell library (lib/install_linux_opam.sh) are translated into pure
   Lean functions over explicit environment records that stand for the machine
   state seen by the program: filesystem probes, PATH lookups and the results
   of the external subprocesses the code invokes.  Every observable action of
   the code (progress callbacks, subprocess launches, file writes) is recorded
   in an event trace so that ordering and absence of actions can be stated. -/

/-! ## String primitives used by the Go and shell sources -/

/-- Lowercase an ASCII letter; all other characters are unchanged. -/
def asciiLower (c : Char) : Char :=
  if 'A' ≤ c ∧ c ≤ 'Z' then Char.ofNat (c.toNat + 32) else c

/-- Models Go `strings.EqualFold` restricted to ASCII case folding; the only
strings the code compares with it are hex SHA-256 digests, which are ASCII. -/
def equalFold (a b : String) : Bool :=
  a.data.map asciiLower == b.data.map asciiLower

/-- ASCII whitespace recognized by Go `strings.TrimSpace`. -/
def isSpaceGo (c : Char) : Bool :=
  c == ' ' || c == '\t' || c == '\n' || c == '\r' || c.toNat == 11 || c.toNat == 12

/-- Models Go `strings.TrimSpace` (ASCII whitespace; the trimmed values in this
code are hex digests and version numbers, which are ASCII). -/
def trimSpace (s : String) : String :=
  String.mk (((s.data.dropWhile isSpaceGo).reverse.dropWhile isSpaceGo).reverse)

/-- Models Go `strings.HasPrefix` / the shell glob test `[[ $v == 2.* ]]`. -/
def strStartsWith (s pat : String) : Bool :=
  pat.data.isPrefixOf s.data

/-- `listHasInfix pat cs` holds when `pat` occurs contiguously inside `cs`. -/
def listHasInfix (pat : List Char) : List Char → Bool
  | [] => pat.isEmpty
  | c :: cs => pat.isPrefixOf (c :: cs) || listHasInfix pat cs

/-- Literal substring containment (Go `strings.Contains`). -/
def strContainsSub (s pat : String) : Bool :=
  listHasInfix pat.data s.data

/-- One position of POSIX basic-regular-expression matching where the only
metacharacter is `.` (matches any single character).  The patterns this
repository passes to `grep -q` are major.minor version strings such as `9.0`,
whose only BRE metacharacter is the dot. -/
def patMatchesAt : List Char → List Char → Bool
  | [], _ => true
  | _ :: _, [] => false
  | p :: ps, c :: cs => (p == '.' || p == c) && patMatchesAt ps cs

def grepAux (pat : List Char) : List Char → Bool
  | [] => patMatchesAt pat []
  | c :: cs => patMatchesAt pat (c :: cs) || grepAux pat cs

/-- Models `echo "$text" | grep -q "$pat"` for dot-only BRE patterns:
true when the pattern matches anywhere in the text. -/
def grepQ (text pat : String) : Bool :=
  grepAux pat.data text.data

/-- Splitter for Go `strings.SplitN(s, ".", n)`: the first argument is the
maximal number of pieces; the final piece keeps any remaining dots. -/
def splitNCharsAux : Nat → List Char → List (List Char)
  | 0, cs => [cs]
  | 1, cs => [cs]
  | n + 2, cs =>
    let pre := cs.takeWhile (fun c => c != '.')
    match cs.dropWhile (fun c => c != '.') with
    | [] => [pre]
    | _ :: tail => pre :: splitNCharsAux (n + 1) tail

/-- Models Go `strings.SplitN(s, ".", n)` for `n ≥ 1`. -/
def splitNDot (s : String) (n : Nat) : List String :=
  (splitNCharsAux n s.data).map String.mk

/-- Models the shell parameter expansion `${v%.*}`: remove the shortest suffix
matching `.*`, i.e. drop everything from the last dot on (`9.0.0` → `9.0`);
a dot-free string is unchanged. -/
def dropLastDotComponent (s : String) : String :=
  let rcs := s.data.reverse
  if rcs.contains '.' then
    String.mk ((rcs.dropWhile (fun c => c != '.')).drop 1 |>.reverse)
  else s

/-! ## Go error values and SwitchName -/

/-- Go `error` values: we keep only the formatted message. -/
inductive GoErr
  | msg (s : String)
deriving Repr, DecidableEq

/-- `SwitchName` from `linux/internal/installer/installer.go`: the opam switch
name for a manifest, `CP.<platform_release>~<rocq major.minor>`. -/
def SwitchName (rocqVersion platformRelease : String) : String :=
  let rocqShort :=
    match splitNDot rocqVersion 3 with
    | a :: b :: _ => a ++ "." ++ b
    | _ => rocqVersion
  "CP." ++ platformRelease ++ "~" ++ rocqShort

/-- `DefaultInstallDir` from the windows installer: default install directory
derived from the manifest versions. -/
def DefaultInstallDir (rocqVersion platformRelease : String) : String :=
  let rocqShort :=
    match splitNDot rocqVersion 3 with
    | a :: b :: _ => a ++ "." ++ b
    | _ => rocqVersion
  let releaseShort :=
    match splitNDot platformRelease 3 with
    | a :: b :: _ => a ++ "." ++ b
    | _ => platformRelease
  "C:\\Rocq-platform~" ++ rocqShort ++ "~" ++ releaseShort

/-! ## Checksum verification (`VerifySHA256`, shared by macOS and Windows) -/

/-- `VerifySHA256` from the installer package: `openRes` models `os.Open` on
the downloaded file and `hashRes` models streaming its contents through
SHA-256 to a lowercase hex digest.  An empty (after trimming) expected hash
skips verification. -/
def VerifySHA256 (openRes : Except GoErr Unit) (hashRes : Except GoErr String)
    (expected : String) : Except GoErr Unit :=
  let expected := trimSpace expected
  if expected = "" then .ok ()
  else
    match openRes with
    | .error _ => .error (.msg "open for checksum")
    | .ok () =>
      match hashRes with
      | .error _ => .error (.msg "hash file")
      | .ok got =>
        if equalFold got expected then .ok ()
        else .error (.msg ("SHA256 mismatch: expected " ++ expected ++ ", got " ++ got))

/-! ## Observable events

Every externally observable action of the embedded code is recorded in a
trace: progress callbacks (`step`), subprocess launches, filesystem writes. -/

inductive Ev
  | step (n : Nat) (label : String) (fraction : ℚ)
  | download (url : String)
  | mount (dmgPath : String)
  | unmount (mountPoint : String)
  | writeTestFile (path : String)
  | removeFile (path : String)
  | mkdirAll (path : String)
  | removeAllPath (path : String)
  | copyRsync (src dst : String)
  | copyCp (src dst : String)
  | shellExec (verb exe args : String)
  | waitProcess
  | installExtensionEv
  | createWorkspaceEv (dir : String)
  | writeSettingsEv (dir : String)
  | openWorkspaceEv (dir : String)
  | pkgInstall (manager : String) (pkgs : List String)
  | bootstrapRun
  | opamCmd (args : List String)
deriving Repr, DecidableEq

/-- The step number of a progress-callback event. -/
def stepIndex : Ev → Option Nat
  | .step n _ _ => some n
  | _ => none

/-- Whether an event is an action of an install strategy (mount/copy/
elevated launch/package-manager command), as opposed to a progress report
or an acquisition/workspace action. -/
def isInstallAction : Ev → Bool
  | .mount _ => true
  | .unmount _ => true
  | .removeAllPath _ => true
  | .copyRsync _ _ => true
  | .copyCp _ _ => true
  | .shellExec _ _ _ => true
  | .waitProcess => true
  | .opamCmd _ => true
  | .pkgInstall _ _ => true
  | .bootstrapRun => true
  | _ => false

/-- Whether an event copies data to the destination. -/
def isCopyAction : Ev → Bool
  | .copyRsync _ _ => true
  | .copyCp _ _ => true
  | _ => false

/-- Whether an event is one of the non-mutating-or-reverted probe actions of
the destination-directory test (write/remove of a probe file, mkdir). -/
def isBenignProbe : Ev → Bool
  | .writeTestFile _ => true
  | .removeFile _ => true
  | .mkdirAll _ => true
  | _ => false

/-- The event constructors steps 4–7 of a pipeline can emit. -/
def isTailEv : Ev → Bool
  | .step _ _ _ => true
  | .installExtensionEv => true
  | .createWorkspaceEv _ => true
  | .writeSettingsEv _ => true
  | .openWorkspaceEv _ => true
  | _ => false

/-! ## JSON documents and the two manifest parsers (C4)

`Json` models a decoded JSON document.  The decoders below model the behavior
of Go `encoding/json.Unmarshal` into the manifest struct types: an absent key
or an explicit `null` leaves the target field at its zero value, while a value
of the wrong shape is an unmarshal error.  A `Parse` input of `none` stands
for raw bytes that are not well-formed JSON (`json.Unmarshal` rejects them). -/

inductive Json
  | null
  | jbool (b : Bool)
  | jnum (n : Int)
  | jstr (s : String)
  | jarr (elems : List Json)
  | jobj (fields : List (String × Json))

def jGet (fields : List (String × Json)) (k : String) : Option Json :=
  (fields.find? (fun f => f.1 == k)).map (fun f => f.2)

def decStr : Option Json → Except GoErr String
  | none => .ok ""
  | some .null => .ok ""
  | some (.jstr s) => .ok s
  | some _ => .error (.msg "json: cannot unmarshal value into string field")

def decObjFields : Option Json → Except GoErr (List (String × Json))
  | none => .ok []
  | some .null => .ok []
  | some (.jobj fs) => .ok fs
  | some _ => .error (.msg "json: cannot unmarshal value into struct field")

def decArr : Option Json → Except GoErr (List Json)
  | none => .ok []
  | some .null => .ok []
  | some (.jarr xs) => .ok xs
  | some _ => .error (.msg "json: cannot unmarshal value into slice field")

/-- Asset from macos/internal/manifest/manifest.go (`TypeTag` is the Go field
`Type`, whose JSON key is "type"). -/
structure MacAsset where
  TypeTag : String
  URL : String
  SHA256 : String
deriving Repr, DecidableEq

/-- Manifest from macos/internal/manifest/manifest.go; `MacOSARM64` is the
nested `Assets.MacOS.ARM64` field, the only asset the macOS build consults. -/
structure MacManifest where
  Channel : String
  RocqVersion : String
  PlatformRelease : String
  MacOSARM64 : MacAsset
deriving Repr, DecidableEq

def decodeMacAsset (j : Option Json) : Except GoErr MacAsset := do
  let fs ← decObjFields j
  let t ← decStr (jGet fs "type")
  let u ← decStr (jGet fs "url")
  let h ← decStr (jGet fs "sha256")
  return ⟨t, u, h⟩

def decodeMacManifest (j : Json) : Except GoErr MacManifest := do
  let fs ← decObjFields (some j)
  let ch ← decStr (jGet fs "channel")
  let rv ← decStr (jGet fs "rocq_version")
  let pr ← decStr (jGet fs "platform_release")
  let assets ← decObjFields (jGet fs "assets")
  let macos ← decObjFields (jGet assets "macos")
  let arm ← decodeMacAsset (jGet macos "arm64")
  return ⟨ch, rv, pr, arm⟩

/-- Parse from macos/internal/manifest/manifest.go: unmarshal, then reject a
manifest whose macOS arm64 asset URL is empty.  (It inspects only the URL;
the asset's type tag is not examined.) -/
def macParse (input : Option Json) : Except GoErr MacManifest :=
  match input with
  | none => .error (.msg "parse manifest: invalid JSON")
  | some j =>
    match decodeMacManifest j with
    | .error e => .error e
    | .ok m =>
      if m.MacOSARM64.URL = "" then .error (.msg "manifest: no macOS arm64 asset URL")
      else .ok m

/-- OpamPackage from linux/internal/manifest/manifest.go. -/
structure OpamPackage where
  Name : String
  Version : String
  Optional : String
deriving Repr, DecidableEq

/-- OpamConfig from linux/internal/manifest/manifest.go (`SwitchPfx` is the
Go field whose JSON key is "switch_prefix"). -/
structure OpamConfig where
  OCamlCompiler : String
  SwitchPfx : String
  RepoName : String
  RepoURL : String
  Packages : List OpamPackage
deriving Repr, DecidableEq

/-- Asset from linux/internal/manifest/manifest.go. -/
structure LinAsset where
  TypeTag : String
  Opam : OpamConfig
deriving Repr, DecidableEq

/-- Manifest from linux/internal/manifest/manifest.go; `LinuxX86_64` is the
nested `Assets.Linux.X86_64` field. -/
structure LinManifest where
  Channel : String
  RocqVersion : String
  PlatformRelease : String
  LinuxX86_64 : LinAsset
deriving Repr, DecidableEq

def decodeOpamPackage (j : Json) : Except GoErr OpamPackage := do
  let fs ← decObjFields (some j)
  let n ← decStr (jGet fs "name")
  let v ← decStr (jGet fs "version")
  let o ← decStr (jGet fs "optional")
  return ⟨n, v, o⟩

def decodeOpamConfig (j : Option Json) : Except GoErr OpamConfig := do
  let fs ← decObjFields j
  let comp ← decStr (jGet fs "ocaml_compiler")
  let sp ← decStr (jGet fs "switch_prefix")
  let rn ← decStr (jGet fs "repo_name")
  let ru ← decStr (jGet fs "repo_url")
  let pk ← decArr (jGet fs "packages")
  let pkgs ← pk.mapM decodeOpamPackage
  return ⟨comp, sp, rn, ru, pkgs⟩

def decodeLinManifest (j : Json) : Except GoErr LinManifest := do
  let fs ← decObjFields (some j)
  let ch ← decStr (jGet fs "channel")
  let rv ← decStr (jGet fs "rocq_version")
  let pr ← decStr (jGet fs "platform_release")
  let assets ← decObjFields (jGet fs "assets")
  let lin ← decObjFields (jGet assets "linux")
  let x64fs ← decObjFields (jGet lin "x86_64")
  let t ← decStr (jGet x64fs "type")
  let oc ← decodeOpamConfig (jGet x64fs "opam")
  return ⟨ch, rv, pr, ⟨t, oc⟩⟩

/-- Parse from linux/internal/manifest/manifest.go: unmarshal, then reject a
manifest whose Linux x86_64 asset type tag is not "opam" (which also covers a
missing asset entry, whose zero-value tag is ""). -/
def linParse (input : Option Json) : Except GoErr LinManifest :=
  match input with
  | none => .error (.msg "parse manifest: invalid JSON")
  | some j =>
    match decodeLinManifest j with
    | .error e => .error e
    | .ok m =>
      if m.LinuxX86_64.TypeTag ≠ "opam" then
        .error (.msg "manifest: Linux x86_64 asset is not opam type")
      else .ok m

/-! ## ensureOpam from the Go Linux pipeline (C5) -/

/-- Environment for `ensureOpam`: the result of `exec.LookPath("opam")` and,
when found, of running `opam --version`. -/
structure GoOpamEnv where
  lookPathOpam : Except GoErr String
  versionOutput : Except GoErr String

/-- ensureOpam from linux/internal/installer/installer.go: checks PATH for
opam, and when present sanity-checks its version string; when opam is absent
it returns an error directing the user to install opam manually — no
bootstrap script is attempted (the trace stays empty). -/
def ensureOpamGo (env : GoOpamEnv) : Except GoErr String × List Ev :=
  match env.lookPathOpam with
  | .ok path =>
    match env.versionOutput with
    | .ok out =>
      let ver := trimSpace out
      if strStartsWith ver "2." then (.ok path, [])
      else (.error (.msg ("opam >= 2.x required (found " ++ ver ++ ")")), [])
    | .error _ => (.ok path, [])
  | .error _ =>
    (.error (.msg "opam not found in PATH. Please install opam: https://opam.ocaml.org/doc/Install.html"), [])

/-! ## The elevated-installer strategy (windows, C6) -/

/-- List of arguments RunInnoSetup builds for the self-extracting installer:
`/SP-` (suppress the "This will install... continue?" startup prompt) and an
explicit target directory. -/
def innoSetupArgList (installDir : String) : List String :=
  ["/SP-", "/DIR=" ++ installDir]

/-- Models Go `strings.Join(xs, " ")`. -/
def joinSpace : List String → String
  | [] => ""
  | [a] => a
  | a :: rest => a ++ " " ++ joinSpace rest

/-- Modelled from the spec: the Inno Setup command-line flags that make an
installation silent or suppress the post-install restart — `/SILENT`,
`/VERYSILENT`, `/NORESTART`.  The spec asserts the strategy passes "a
silent/no-restart flag"; this list is what such a flag would be. -/
def specSilentNoRestartFlags : List String :=
  ["/SILENT", "/VERYSILENT", "/NORESTART"]

/-- Environment for shellExecuteAsAdmin: results of the Win32 calls it makes. -/
structure ShellExecEnv where
  shellExecuteOk : Bool
  hProcess : Nat
  waitFailed : Bool
  getExitCodeOk : Bool
  exitCode : Nat
deriving Repr, DecidableEq

/-- shellExecuteAsAdmin from the windows installer: launches `exe` elevated
(ShellExecuteExW with verb "runas"), waits for the process handle when one is
returned, and fails when the elevated process exits nonzero. -/
def shellExecuteAsAdmin (env : ShellExecEnv) (exe args : String) :
    Except GoErr Unit × List Ev :=
  let evs : List Ev := [.shellExec "runas" exe args]
  if !env.shellExecuteOk then (.error (.msg "ShellExecuteEx"), evs)
  else if env.hProcess ≠ 0 then
    let evs := evs ++ [.waitProcess]
    if env.waitFailed then (.error (.msg "WaitForSingleObject failed"), evs)
    else if !env.getExitCodeOk then (.error (.msg "GetExitCodeProcess"), evs)
    else if env.exitCode ≠ 0 then
      (.error (.msg ("installer exited with code " ++ toString env.exitCode)), evs)
    else (.ok (), evs)
  else (.ok (), evs)

/-- RunInnoSetup from the windows installer: runs the self-extracting
installer elevated with the argument list `/SP-`, `/DIR=<installDir>`. -/
def RunInnoSetup (env : ShellExecEnv) (exePath installDir : String) :
    Except GoErr Unit × List Ev :=
  shellExecuteAsAdmin env exePath (joinSpace (innoSetupArgList installDir))

/-! ## Shell strategy: lib/install_linux_opam.sh (C1, C5)

The embedding follows the current version of the script (the one defining
`ensure_opam`/`ensure_opam_deps`).  The script runs under `set -e`: an
unchecked failing command aborts the run, modelled as `ShErr.exitFail`;
an explicit `die "msg"` is `ShErr.die msg`.  Purely local operations
(`mktemp`, `chmod`, `rm`) are assumed to succeed. -/

inductive ShErr
  | die (msg : String)
  | exitFail (cmd : String)
deriving Repr, DecidableEq

/-- Shell variables read by install_rocq_linux_opam. `recreateSwitch` and
`skipVSCode` model `RECREATE_SWITCH`/`SKIP_VSCODE` (numeric, tested with
`-eq 1`); `withRocqide` models `WITH_ROCQIDE` (tested against the literal
"yes"); `opamSnapshot` models `OPAM_SNAPSHOT` ("" when unset). -/
structure ShInputs where
  rocqVersion : String
  platformRelease : String
  opamSnapshot : String
  recreateSwitch : Nat
  skipVSCode : Nat
  withRocqide : String

/-- Machine state seen by the script: which commands `command -v` finds, and
the success/failure (plus output) of each external command it runs. -/
structure ShEnv where
  cmdPresent : String → Bool
  isRoot : Bool
  aptOk : Bool
  dnfOk : Bool
  yumOk : Bool
  pacmanOk : Bool
  zypperOk : Bool
  curlFetchOk : Bool
  bootstrapOk : Bool
  opamAfterBootstrap : Bool
  opamAfterPathFix : Bool
  opamVersionOut : String
  opamRootExists : Bool
  opamInitOk : Bool
  switchList : List String
  switchRemoveOk : Bool
  switchCreateOk : Bool
  repoAddOk : Bool
  repoSetUrlOk : Bool
  setReposOk : Bool
  priorityOk : Bool
  updateOk : Bool
  installStackOk : Bool
  installVsrocqPinnedOk : Bool
  installVsrocqFallbackOk : Bool
  installRocqideOk : Bool
  opamVarBin : Except Unit String
  vsrocqtopExec : Bool
  rocqExec : Bool
  rocqPrintVersion : String
  rocqVersionLine : String

/-- The command:package dependency table of ensure_opam_deps. -/
def opamDeps : List (String × String) :=
  [("unzip", "unzip"), ("bwrap", "bubblewrap"), ("make", "make"), ("cc", "gcc")]

/-- Packages whose command is missing from PATH. -/
def missingPkgs (env : ShEnv) : List String :=
  (opamDeps.filter (fun d => !env.cmdPresent d.1)).map (fun d => d.2)

/-- The if/elif probe order of ensure_opam_deps, with each system package
manager's install success flag. -/
def mgrTable (env : ShEnv) : List (String × Bool) :=
  [("apt-get", env.aptOk), ("dnf", env.dnfOk), ("yum", env.yumOk),
   ("pacman", env.pacmanOk), ("zypper", env.zypperOk)]

/-- First system package manager found on PATH, in probe order. -/
def firstMgr (env : ShEnv) : Option (String × Bool) :=
  (mgrTable env).find? (fun m => env.cmdPresent m.1)

/-- ensure_opam_deps from lib/install_linux_opam.sh: install the build
dependencies opam's bootstrap needs through whichever system package manager
is found first; dies when neither root nor sudo, or no manager, is available. -/
def ensureOpamDeps (env : ShEnv) : Except ShErr Unit × List Ev :=
  let missing := missingPkgs env
  if missing = [] then (.ok (), [])
  else if !env.isRoot && !env.cmdPresent "sudo" then
    (.error (.die "Cannot install opam dependencies: not root and sudo not available. Please install them manually."), [])
  else
    match firstMgr env with
    | some (mgr, ok) =>
      if ok then (.ok (), [.pkgInstall mgr missing])
      else (.error (.exitFail mgr), [.pkgInstall mgr missing])
    | none =>
      (.error (.die "Cannot install opam dependencies: no supported package manager found. Please install them manually."), [])

/-- ensure_opam from lib/install_linux_opam.sh: returns at once when opam is
already on PATH; otherwise fetches and runs the official opam bootstrap
script (after resolving build dependencies) and re-checks for opam, trying a
PATH fix before giving up. -/
def ensureOpamSh (env : ShEnv) : Except ShErr Unit × List Ev :=
  if env.cmdPresent "opam" then (.ok (), [])
  else if !env.cmdPresent "curl" then
    (.error (.die "Missing required command: curl"), [])
  else
    match ensureOpamDeps env with
    | (.error e, evs) => (.error e, evs)
    | (.ok (), evs) =>
      if !env.curlFetchOk then (.error (.exitFail "curl install.sh"), evs)
      else
        let evs := evs ++ [.bootstrapRun]
        if !env.bootstrapOk then (.error (.exitFail "sh install.sh --no-backup"), evs)
        else if env.opamAfterBootstrap then (.ok (), evs)
        else if env.opamAfterPathFix then (.ok (), evs)
        else (.error (.die "opam installation failed - please install opam manually: https://opam.ocaml.org/doc/Install.html"), evs)

/-- Shell variables exported by a successful install_rocq_linux_opam run. -/
structure ShState where
  opamSwitchName : String
  vsrocqtopPath : String
  rocqPath : String
deriving Repr, DecidableEq

/-- The recreate-then-create-if-missing switch paragraph of the script.
`opam switch list --short | grep -qx "$switch"` is exact whole-line
membership in the switch list; a removal updates the list the second
check sees. -/
def shSwitchSetup (env : ShEnv) (recreateSwitch : Nat) (switch : String) :
    Except ShErr Unit × List Ev :=
  let removeStep : Except ShErr (List String) × List Ev :=
    if env.switchList.contains switch && recreateSwitch == 1 then
      (if env.switchRemoveOk then
        (.ok (env.switchList.erase switch), [.opamCmd ["switch", "remove", switch, "-y"]])
      else (.error (.exitFail "opam switch remove"), [.opamCmd ["switch", "remove", switch, "-y"]]))
    else (.ok env.switchList, [])
  match removeStep with
  | (.error e, evs) => (.error e, evs)
  | (.ok switches, evs) =>
    if switches.contains switch then (.ok (), evs)
    else
      let createEv := Ev.opamCmd ["switch", "create", switch, "ocaml-base-compiler.4.14.2", "-y"]
      if env.switchCreateOk then (.ok (), evs ++ [createEv])
      else (.error (.exitFail "opam switch create"), evs ++ [createEv])

/-- The repository paragraph: repo add (falling back to set-url), set-repos,
priority, update — each a plain command fatal under `set -e` when it fails. -/
def shRepoSetup (env : ShEnv) (switch : String) : Except ShErr Unit × List Ev :=
  let addEv := Ev.opamCmd ["repo", "add", "--switch=" ++ switch,
    "rocq-released", "https://rocq-prover.org/opam/released", "-y"]
  let setUrlEv := Ev.opamCmd ["repo", "set-url", "--switch=" ++ switch,
    "rocq-released", "https://rocq-prover.org/opam/released", "-y"]
  let addStep : Except ShErr Unit × List Ev :=
    if env.repoAddOk then (.ok (), [addEv])
    else if env.repoSetUrlOk then (.ok (), [addEv, setUrlEv])
    else (.error (.exitFail "opam repo set-url"), [addEv, setUrlEv])
  match addStep with
  | (.error e, evs) => (.error e, evs)
  | (.ok (), evs) =>
    let setReposEv := Ev.opamCmd ["repo", "set-repos", "--switch=" ++ switch,
      "rocq-released", "default", "archive"]
    let prioEv := Ev.opamCmd ["repo", "priority", "--switch=" ++ switch, "rocq-released", "1"]
    let updateEv := Ev.opamCmd ["update", "--switch=" ++ switch]
    if !env.setReposOk then (.error (.exitFail "opam repo set-repos"), evs ++ [setReposEv])
    else if !env.priorityOk then
      (.error (.exitFail "opam repo priority"), evs ++ [setReposEv, prioEv])
    else if !env.updateOk then
      (.error (.exitFail "opam update"), evs ++ [setReposEv, prioEv, updateEv])
    else (.ok (), evs ++ [setReposEv, prioEv, updateEv])

/-- The package-installation paragraph: the pinned Rocq stack, then
vsrocq-language-server (pinned, with an unpinned fallback) unless
SKIP_VSCODE=1, then rocqide when WITH_ROCQIDE=yes. -/
def shInstallPackages (env : ShEnv) (inp : ShInputs) (switch : String) :
    Except ShErr Unit × List Ev :=
  let stackEv := Ev.opamCmd ["install", "--switch=" ++ switch, "-y",
    "rocq-runtime=" ++ inp.rocqVersion, "rocq-core=" ++ inp.rocqVersion,
    "rocq-stdlib=" ++ inp.rocqVersion, "rocq-prover=" ++ inp.rocqVersion]
  if !env.installStackOk then (.error (.exitFail "opam install rocq stack"), [stackEv])
  else
    let pinnedEv := Ev.opamCmd ["install", "--switch=" ++ switch, "-y",
      "vsrocq-language-server=2.3.4"]
    let fallbackEv := Ev.opamCmd ["install", "--switch=" ++ switch, "-y",
      "vsrocq-language-server"]
    let vsrocqStep : Except ShErr Unit × List Ev :=
      if inp.skipVSCode == 1 then (.ok (), [stackEv])
      else if env.installVsrocqPinnedOk then (.ok (), [stackEv, pinnedEv])
      else if env.installVsrocqFallbackOk then (.ok (), [stackEv, pinnedEv, fallbackEv])
      else (.error (.exitFail "opam install vsrocq-language-server"),
        [stackEv, pinnedEv, fallbackEv])
    match vsrocqStep with
    | (.error e, evs) => (.error e, evs)
    | (.ok (), evs) =>
      if inp.withRocqide = "yes" then
        let ideEv := Ev.opamCmd ["install", "--switch=" ++ switch, "-y",
          "rocqide=" ++ inp.rocqVersion]
        if env.installRocqideOk then (.ok (), evs ++ [ideEv])
        else (.error (.exitFail "opam install rocqide"), evs ++ [ideEv])
      else (.ok (), evs)

/-- The final paragraph: resolve the switch bin directory, require vsrocqtop
(unless SKIP_VSCODE=1) and rocq to be executable there, then check that the
reported rocq version matches the requested major.minor via
`echo "$got" | grep -q "$want_mm"`. -/
def shFinalChecks (env : ShEnv) (inp : ShInputs) (switch : String) :
    Except ShErr ShState × List Ev :=
  match env.opamVarBin with
  | .error _ => (.error (.exitFail "opam var bin"), [])
  | .ok bin =>
    let vsrocqtopPath := bin ++ "/vsrocqtop"
    let rocqPath := bin ++ "/rocq"
    let vsrocqStep : Except ShErr String :=
      if !env.vsrocqtopExec then
        (if inp.skipVSCode == 1 then .ok ""
         else .error (.die ("vsrocqtop not found in switch bin: " ++ vsrocqtopPath
           ++ " (install vsrocq-language-server)")))
      else .ok vsrocqtopPath
    match vsrocqStep with
    | .error e => (.error e, [])
    | .ok vsp =>
      if !env.rocqExec then
        (.error (.die ("rocq not found in switch bin: " ++ rocqPath)), [])
      else
        let got := if env.rocqPrintVersion ≠ "" then env.rocqPrintVersion
          else env.rocqVersionLine
        let wantMM := dropLastDotComponent inp.rocqVersion
        if grepQ got wantMM then (.ok ⟨switch, vsp, rocqPath⟩, [])
        else
          (.error (.die ("Installed rocq does not match requested Rocq "
            ++ inp.rocqVersion ++ " (got: " ++ got ++ ")")), [])

/-- install_rocq_linux_opam from lib/install_linux_opam.sh: the full opam
switch lifecycle.  The switch name is
`CP.${PLATFORM_RELEASE}~${ROCQ_VERSION%.*}`, with `~$OPAM_SNAPSHOT` appended
when that variable is non-empty. -/
def installRocqLinuxOpam (env : ShEnv) (inp : ShInputs) :
    Except ShErr ShState × List Ev :=
  match ensureOpamSh env with
  | (.error e, evs) => (.error e, evs)
  | (.ok (), evsA) =>
    if !strStartsWith env.opamVersionOut "2." then
      (.error (.die ("opam >= 2.1.0 required (found " ++ env.opamVersionOut ++ ")")), evsA)
    else
      let initEv := Ev.opamCmd ["init", "-y", "--bare", "--disable-sandboxing"]
      let initStep : Except ShErr Unit × List Ev :=
        if env.opamRootExists then (.ok (), [])
        else if env.opamInitOk then (.ok (), [initEv])
        else (.error (.exitFail "opam init"), [initEv])
      match initStep with
      | (.error e, evsB) => (.error e, evsA ++ evsB)
      | (.ok (), evsB) =>
        let rocqMM := dropLastDotComponent inp.rocqVersion
        let switch0 := "CP." ++ inp.platformRelease ++ "~" ++ rocqMM
        let switch := if inp.opamSnapshot ≠ "" then switch0 ++ "~" ++ inp.opamSnapshot
          else switch0
        match shSwitchSetup env inp.recreateSwitch switch with
        | (.error e, evsC) => (.error e, evsA ++ evsB ++ evsC)
        | (.ok (), evsC) =>
          match shRepoSetup env switch with
          | (.error e, evsD) => (.error e, evsA ++ evsB ++ evsC ++ evsD)
          | (.ok (), evsD) =>
            match shInstallPackages env inp switch with
            | (.error e, evsE) => (.error e, evsA ++ evsB ++ evsC ++ evsD ++ evsE)
            | (.ok (), evsE) =>
              match shFinalChecks env inp switch with
              | (r, evsF) => (r, evsA ++ evsB ++ evsC ++ evsD ++ evsE ++ evsF)

/-- Result-is-success test for `Except`. -/
def exOk {ε α : Type} : Except ε α → Bool
  | .ok _ => true
  | .error _ => false

/-! ## macOS pipeline: InstallApp and Run (C2, C3, C7) -/

/-- filepath.Base for the slash-separated, non-slash-terminated paths this
code builds: the last path component. -/
def baseName (p : String) : String :=
  if p = "" then "."
  else String.mk ((p.data.reverse.takeWhile (fun c => c != '/')).reverse)

/-- Machine state seen by the macOS pipeline: results of every external
probe and subprocess it runs, in program order. -/
structure MacEnv where
  homeDir : Except GoErr String
  downloadResult : Except GoErr String
  shaOpen : Except GoErr Unit
  shaHash : Except GoErr String
  mountResult : Except GoErr String
  findAppResult : Except GoErr String
  applicationsWritable : Bool
  mkdirHomeAppsOk : Bool
  pathExists : String → Bool
  rsyncOk : Bool
  cpOk : Bool
  unmountOk : Bool
  vsrocqtopResult : Except GoErr String
  findCodeResult : Except GoErr String
  extensionInstallOk : Bool
  workspaceCreateOk : Except GoErr Unit
  writeSettingsOk : Bool
  openWorkspaceOk : Bool

/-- Config of the macOS pipeline Run. -/
structure MacConfig where
  manifest : MacManifest
  skipInstall : Bool
  existingApp : String

/-- Result of the macOS pipeline Run. -/
structure MacResult where
  VSCodeFound : Bool
  InstalledApp : String
  VsrocqtopPath : String
deriving Repr, DecidableEq

/-- The destination-directory probe of InstallApp: /Applications when the
write test succeeds (test file is removed again), else ~/Applications
(created with MkdirAll). -/
def installAppDestDir (env : MacEnv) : Except GoErr String × List Ev :=
  let testFile := "/Applications/.rocq-write-test"
  if env.applicationsWritable then
    (.ok "/Applications", [.writeTestFile testFile, .removeFile testFile])
  else
    match env.homeDir with
    | .error _ => (.error (.msg "get home dir"), [.writeTestFile testFile])
    | .ok home =>
      let dir := home ++ "/Applications"
      if env.mkdirHomeAppsOk then (.ok dir, [.writeTestFile testFile, .mkdirAll dir])
      else (.error (.msg "create ~/Applications"), [.writeTestFile testFile, .mkdirAll dir])

/-- InstallApp from macos/internal/installer/dmg.go: copy the .app bundle to
the chosen Applications directory.  An existing destination is returned
unchanged when `force` is false; otherwise the destination is removed
(failure only logged) and the bundle copied with rsync --delete, falling
back to cp -R. -/
def InstallApp (env : MacEnv) (appSrc : String) (force : Bool) :
    Except GoErr String × List Ev :=
  match installAppDestDir env with
  | (.error e, evs) => (.error e, evs)
  | (.ok destDir, evs) =>
    let appDst := destDir ++ "/" ++ baseName appSrc
    if env.pathExists appDst && !force then (.ok appDst, evs)
    else
      let evs := evs ++ [Ev.removeAllPath appDst, Ev.copyRsync appSrc appDst]
      if env.rsyncOk then (.ok appDst, evs)
      else
        let evs := evs ++ [Ev.copyCp appSrc appDst]
        if env.cpOk then (.ok appDst, evs)
        else (.error (.msg "copy app"), evs)

/-- Steps 4–7 of the macOS pipeline Run (locate vsrocqtop, check VSCode,
create workspace, configure VSCode), shared by the install and skip paths. -/
def macRunTail (env : MacEnv) (workspaceDir installedAppPath : String) :
    Except GoErr MacResult × List Ev :=
  let s4 : String × List Ev :=
    match env.vsrocqtopResult with
    | .error _ => ("", [.step 4 "Locating vsrocqtop..." 0,
        .step 4 "vsrocqtop not found (will skip VSCode settings)." 1])
    | .ok p => (p, [.step 4 "Locating vsrocqtop..." 0, .step 4 "Found vsrocqtop." 1])
  let vsp := s4.1
  let evs := s4.2 ++ [Ev.step 5 "Checking for VSCode..." 0]
  match env.findCodeResult with
  | .error _ =>
    (.ok ⟨false, installedAppPath, vsp⟩,
      evs ++ [Ev.step 5 "VSCode not found." 1,
        Ev.step 6 "Skipped (VSCode not found)." 1,
        Ev.step 7 "Skipped (VSCode not found)." 1])
  | .ok _codeBin =>
    let evs := evs ++ [Ev.installExtensionEv, Ev.step 5 "VSCode extension installed." 1,
      Ev.step 6 "Creating workspace..." 0, Ev.createWorkspaceEv workspaceDir]
    match env.workspaceCreateOk with
    | .error _ => (.error (.msg "workspace"), evs)
    | .ok () =>
      let evs := evs ++ [Ev.step 6 "Workspace created." 1, Ev.step 7 "Configuring VSCode..." 0]
      let settingsStep : Except GoErr Unit × List Ev :=
        if vsp ≠ "" then
          (if env.writeSettingsOk then (.ok (), [Ev.writeSettingsEv workspaceDir])
           else (.error (.msg "vscode config"), [Ev.writeSettingsEv workspaceDir]))
        else (.ok (), [])
      match settingsStep with
      | (.error e, evs2) => (.error e, evs ++ evs2)
      | (.ok (), evs2) =>
        (.ok ⟨true, installedAppPath, vsp⟩,
          evs ++ evs2 ++ [Ev.openWorkspaceEv workspaceDir, Ev.step 7 "Done!" 1])

/-- Run from the macOS installer pipeline (unnamed/part_001): the 7-step
protocol with DMG download / checksum / mount-copy-unmount on the install
path, and three "skipped" steps when an existing .app is reused. -/
def macRun (env : MacEnv) (cfg : MacConfig) : Except GoErr MacResult × List Ev :=
  let asset := cfg.manifest.MacOSARM64
  match env.homeDir with
  | .error _ => (.error (.msg "get home dir"), [])
  | .ok home =>
    let workspaceDir := home ++ "/rocq-workspace"
    if cfg.skipInstall && cfg.existingApp ≠ "" then
      let evs := [Ev.step 1 "Rocq Platform already installed, skipping download." 1,
        Ev.step 2 "Skipped (already installed)." 1,
        Ev.step 3 "Skipped (already installed)." 1]
      match macRunTail env workspaceDir cfg.existingApp with
      | (r, evs2) => (r, evs ++ evs2)
    else
      let evs := [Ev.step 1 "Downloading Rocq Platform DMG..." 0, Ev.download asset.URL]
      match env.downloadResult with
      | .error _ => (.error (.msg "download"), evs)
      | .ok dmgPath =>
        let evs := evs ++ [Ev.step 2 "Verifying checksum..." 0]
        match VerifySHA256 env.shaOpen env.shaHash asset.SHA256 with
        | .error _ => (.error (.msg "checksum"), evs)
        | .ok () =>
          let evs := evs ++ [Ev.step 2 "Checksum verified." 1,
            Ev.step 3 "Installing Rocq Platform..." 0, Ev.mount dmgPath]
          match env.mountResult with
          | .error _ => (.error (.msg "mount DMG"), evs)
          | .ok mountPoint =>
            match env.findAppResult with
            | .error _ => (.error (.msg "find app in DMG"), evs ++ [Ev.unmount mountPoint])
            | .ok appSrc =>
              let evs := evs
                ++ [Ev.step 3 ("Copying " ++ baseName appSrc ++ " to Applications...") (1/2)]
              match InstallApp env appSrc false with
              | (.error _, evsI) =>
                (.error (.msg "install app"), evs ++ evsI ++ [Ev.unmount mountPoint])
              | (.ok installedAppPath, evsI) =>
                let evs := evs ++ evsI
                  ++ [Ev.unmount mountPoint, Ev.step 3 "Rocq Platform installed." 1]
                match macRunTail env workspaceDir installedAppPath with
                | (r, evs2) => (r, evs ++ evs2)

/-! ## Windows pipeline: Run (C2, C6) -/

/-- The fields of the windows manifest the pipeline reads (Assets.Windows
.X86_64 flattened into URL/SHA256). -/
structure WinManifest where
  RocqVersion : String
  PlatformRelease : String
  URL : String
  SHA256 : String
deriving Repr, DecidableEq

/-- Machine state seen by the windows pipeline. -/
structure WinEnv where
  homeDir : Except GoErr String
  hasRocq : String → Bool
  downloadResult : Except GoErr String
  shaOpen : Except GoErr Unit
  shaHash : Except GoErr String
  shellExecEnv : ShellExecEnv
  vsrocqtopResult : Except GoErr String
  findCodeResult : Except GoErr String
  workspaceCreateOk : Except GoErr Unit
  writeSettingsOk : Bool

/-- Config of the windows pipeline Run. -/
structure WinConfig where
  manifest : WinManifest
  installDir : String
  skipInstall : Bool

/-- Result of the windows pipeline Run. -/
structure WinResult where
  VSCodeFound : Bool
  InstallDir : String
deriving Repr, DecidableEq

/-- Steps 4–7 of the windows pipeline Run.  (Step 7 strips a `.exe` suffix
and converts backslashes before writing the vsrocqtop path into the VSCode
settings; that transformation only affects the written file's contents.) -/
def winRunTail (env : WinEnv) (workspaceDir installDir : String) :
    Except GoErr WinResult × List Ev :=
  let s4 : String × List Ev :=
    match env.vsrocqtopResult with
    | .error _ => ("", [.step 4 "Locating vsrocqtop..." 0,
        .step 4 "vsrocqtop not found (will skip VSCode settings)." 1])
    | .ok p => (p, [.step 4 "Locating vsrocqtop..." 0, .step 4 "Found vsrocqtop." 1])
  let vsp := s4.1
  let evs := s4.2 ++ [Ev.step 5 "Checking for VSCode..." 0]
  match env.findCodeResult with
  | .error _ =>
    (.ok ⟨false, installDir⟩,
      evs ++ [Ev.step 5 "VSCode not found." 1,
        Ev.step 6 "Skipped (VSCode not found)." 1,
        Ev.step 7 "Skipped (VSCode not found)." 1])
  | .ok _codeBin =>
    let evs := evs ++ [Ev.installExtensionEv, Ev.step 5 "VSCode extension installed." 1,
      Ev.step 6 "Creating workspace..." 0, Ev.createWorkspaceEv workspaceDir]
    match env.workspaceCreateOk with
    | .error _ => (.error (.msg "workspace"), evs)
    | .ok () =>
      let evs := evs ++ [Ev.step 6 "Workspace created." 1, Ev.step 7 "Configuring VSCode..." 0]
      let settingsStep : Except GoErr Unit × List Ev :=
        if vsp ≠ "" then
          (if env.writeSettingsOk then (.ok (), [Ev.writeSettingsEv workspaceDir])
           else (.error (.msg "vscode config"), [Ev.writeSettingsEv workspaceDir]))
        else (.ok (), [])
      match settingsStep with
      | (.error e, evs2) => (.error e, evs ++ evs2)
      | (.ok (), evs2) =>
        (.ok ⟨true, installDir⟩,
          evs ++ evs2 ++ [Ev.openWorkspaceEv workspaceDir, Ev.step 7 "Done!" 1])

/-- Run from the windows installer pipeline (unnamed/part_006): the 7-step
protocol with installer download / checksum / elevated-install on the
install path; the install steps are skipped when SkipInstall is set or an
installation is already present in the target directory. -/
def winRun (env : WinEnv) (cfg : WinConfig) : Except GoErr WinResult × List Ev :=
  let asset := cfg.manifest
  let installDir := if cfg.installDir = "" then
    DefaultInstallDir cfg.manifest.RocqVersion cfg.manifest.PlatformRelease
    else cfg.installDir
  match env.homeDir with
  | .error _ => (.error (.msg "get home dir"), [])
  | .ok home =>
    let workspaceDir := home ++ "\\rocq-workspace"
    let alreadyInstalled := cfg.skipInstall || env.hasRocq installDir
    if alreadyInstalled then
      let evs := [Ev.step 1 "Rocq Platform already installed, skipping download." 1,
        Ev.step 2 "Skipped (already installed)." 1,
        Ev.step 3 "Skipped (already installed)." 1]
      match winRunTail env workspaceDir installDir with
      | (r, evs2) => (r, evs ++ evs2)
    else
      let evs := [Ev.step 1 "Downloading Rocq Platform installer..." 0, Ev.download asset.URL]
      match env.downloadResult with
      | .error _ => (.error (.msg "download"), evs)
      | .ok exePath =>
        let evs := evs ++ [Ev.step 2 "Verifying checksum..." 0]
        match VerifySHA256 env.shaOpen env.shaHash asset.SHA256 with
        | .error _ => (.error (.msg "checksum"), evs)
        | .ok () =>
          let evs := evs ++ [Ev.step 2 "Checksum verified." 1,
            Ev.step 3 "Installing Rocq Platform (follow the installer window)..." 0]
          match RunInnoSetup env.shellExecEnv exePath installDir with
          | (.error _, evsI) => (.error (.msg "install"), evs ++ evsI)
          | (.ok (), evsI) =>
            let evs := evs ++ evsI ++ [Ev.step 3 "Rocq Platform installed." 1]
            match winRunTail env workspaceDir installDir with
            | (r, evs2) => (r, evs ++ evs2)

/-! ## Workspace creation (C10) -/

/-- A filesystem as an association list path ↦ contents; `fsSet` prepends,
`fsGet` takes the first match. -/
abbrev FakeFS := List (String × String)

def fsGet (fs : FakeFS) (p : String) : Option String :=
  (fs.find? (fun e => e.1 == p)).map (fun e => e.2)

def fsSet (fs : FakeFS) (p v : String) : FakeFS := (p, v) :: fs

/-- The template table of workspace.Create (embedded path, destination name);
the linux and macos copies of the function are identical. -/
def wsFiles : List (String × String) :=
  [("embedded/templates/test.v", "test.v"),
   ("embedded/templates/main.v", "main.v"),
   ("embedded/templates/_RocqProject", "_RocqProject")]

/-- Environment of workspace.Create: the pre-existing filesystem, the
embedded template filesystem, and write/mkdir outcomes. -/
structure WsEnv where
  fs : FakeFS
  templates : String → Option String
  mkdirOk : Bool
  writeOk : String → Bool

/-- The per-template-file loop of workspace.Create: a destination that
already exists is skipped (never overwritten); a missing one is written
from the embedded template. -/
def wsCreateLoop (env : WsEnv) (dir : String) :
    List (String × String) → FakeFS → Except GoErr FakeFS
  | [], fs => .ok fs
  | (embPath, destName) :: rest, fs =>
    let dest := dir ++ "/" ++ destName
    if (fsGet fs dest).isSome then wsCreateLoop env dir rest fs
    else
      match env.templates embPath with
      | none => .error (.msg ("read template " ++ embPath))
      | some data =>
        if env.writeOk dest then wsCreateLoop env dir rest (fsSet fs dest data)
        else .error (.msg ("write " ++ dest))

/-- Create from linux/internal/workspace/workspace.go (the macOS copy is
identical): make the workspace directory, then write each template file only
when its destination does not already exist. -/
def wsCreate (env : WsEnv) (workspaceDir : String) : Except GoErr FakeFS :=
  if !env.mkdirOk then .error (.msg "create workspace dir")
  else wsCreateLoop env workspaceDir wsFiles env.fs

/-! ## Concrete machine states and documents used by the claim theorems -/

/-- Scenario E machine for the shell strategy: every external command
succeeds, opam is present (2.5.0), the switch bin directory resolves, and
the installed rocq binary reports version 8.19.0. -/
def scenarioEEnv : ShEnv where
  cmdPresent := fun _ => true
  isRoot := false
  aptOk := true
  dnfOk := true
  yumOk := true
  pacmanOk := true
  zypperOk := true
  curlFetchOk := true
  bootstrapOk := true
  opamAfterBootstrap := true
  opamAfterPathFix := true
  opamVersionOut := "2.5.0"
  opamRootExists := true
  opamInitOk := true
  switchList := []
  switchRemoveOk := true
  switchCreateOk := true
  repoAddOk := true
  repoSetUrlOk := true
  setReposOk := true
  priorityOk := true
  updateOk := true
  installStackOk := true
  installVsrocqPinnedOk := true
  installVsrocqFallbackOk := true
  installRocqideOk := true
  opamVarBin := .ok "/home/u/.opam/CP.2025.08.1~9.0/bin"
  vsrocqtopExec := true
  rocqExec := true
  rocqPrintVersion := "8.19.0"
  rocqVersionLine := ""

/-- Scenario E request: toolchain 9.0.0, release 2025.08.1, defaults. -/
def scenarioEInputs : ShInputs where
  rocqVersion := "9.0.0"
  platformRelease := "2025.08.1"
  opamSnapshot := ""
  recreateSwitch := 0
  skipVSCode := 0
  withRocqide := "no"

/-- A machine where opam is absent from PATH (for the Go ensureOpam). -/
def opamAbsentEnvGo : GoOpamEnv where
  lookPathOpam := .error (.msg "exec: opam: executable file not found in PATH")
  versionOutput := .error (.msg "not run")

/-- A machine for the shell bootstrap path: opam absent, curl and dnf
present,`unzip`/`bwrap`/`make`/`cc` all missing, running as root, every
install step succeeding. -/
def c5Env : ShEnv where
  cmdPresent := fun c => c == "curl" || c == "dnf"
  isRoot := true
  aptOk := true
  dnfOk := true
  yumOk := true
  pacmanOk := true
  zypperOk := true
  curlFetchOk := true
  bootstrapOk := true
  opamAfterBootstrap := true
  opamAfterPathFix := true
  opamVersionOut := "2.5.0"
  opamRootExists := false
  opamInitOk := true
  switchList := []
  switchRemoveOk := true
  switchCreateOk := true
  repoAddOk := true
  repoSetUrlOk := true
  setReposOk := true
  priorityOk := true
  updateOk := true
  installStackOk := true
  installVsrocqPinnedOk := true
  installVsrocqFallbackOk := true
  installRocqideOk := true
  opamVarBin := .ok "/root/.opam/CP.2025.08.1~9.0/bin"
  vsrocqtopExec := true
  rocqExec := true
  rocqPrintVersion := "9.0.0"
  rocqVersionLine := ""

/-- An elevated-installer launch that succeeds, returns a process handle,
and whose elevated process exits with code 5. -/
def c6Env : ShellExecEnv where
  shellExecuteOk := true
  hProcess := 1234
  waitFailed := false
  getExitCodeOk := true
  exitCode := 5

/-- A manifest JSON whose macOS arm64 asset has an unexpected type tag but a
non-empty URL. -/
def badTagManifestJson : Json :=
  .jobj [("assets", .jobj [("macos", .jobj [("arm64", .jobj
    [("type", .jstr "not-a-known-type"),
     ("url", .jstr "https://example.com/x.dmg"),
     ("sha256", .jstr "")])])])]

/-- A well-formed macOS manifest JSON. -/
def goodMacManifestJson : Json :=
  .jobj [("channel", .jstr "stable"), ("rocq_version", .jstr "9.0.0"),
    ("platform_release", .jstr "2025.08.1"),
    ("assets", .jobj [("macos", .jobj [("arm64", .jobj
      [("type", .jstr "dmg"),
       ("url", .jstr "https://example.com/rocq.dmg"),
       ("sha256", .jstr "ab12")])])])]

/-- A macOS pipeline machine whose downloaded file hashes to a value that
differs from the manifest's non-empty expected hash. -/
def c2MacEnv : MacEnv where
  homeDir := .ok "/Users/u"
  downloadResult := .ok "/tmp/rocq-bootstrap/rocq.dmg"
  shaOpen := .ok ()
  shaHash := .ok "deadbeef"
  mountResult := .ok "/Volumes/Rocq"
  findAppResult := .ok "/Volumes/Rocq/Rocq-Platform.app"
  applicationsWritable := true
  mkdirHomeAppsOk := true
  pathExists := fun _ => false
  rsyncOk := true
  cpOk := true
  unmountOk := true
  vsrocqtopResult := .ok "/Applications/Rocq-Platform.app/Contents/Resources/bin/vsrocqtop"
  findCodeResult := .ok "/usr/local/bin/code"
  extensionInstallOk := true
  workspaceCreateOk := .ok ()
  writeSettingsOk := true
  openWorkspaceOk := true

/-- The config going with `c2MacEnv`: expected hash "ab12" ≠ "deadbeef". -/
def c2MacCfg : MacConfig where
  manifest := ⟨"stable", "9.0.0", "2025.08.1", ⟨"dmg", "https://example.com/rocq.dmg", "ab12"⟩⟩
  skipInstall := false
  existingApp := ""

/-- A windows pipeline machine with the same checksum mismatch. -/
def c2WinEnv : WinEnv where
  homeDir := .ok "C:\\Users\\u"
  hasRocq := fun _ => false
  downloadResult := .ok "C:\\Temp\\rocq-bootstrap\\setup.exe"
  shaOpen := .ok ()
  shaHash := .ok "deadbeef"
  shellExecEnv := ⟨true, 1, false, true, 0⟩
  vsrocqtopResult := .ok "C:\\Rocq\\bin\\vsrocqtop.exe"
  findCodeResult := .ok "C:\\code.cmd"
  workspaceCreateOk := .ok ()
  writeSettingsOk := true

/-- The config going with `c2WinEnv`. -/
def c2WinCfg : WinConfig where
  manifest := ⟨"9.0.0", "2025.08.1", "https://example.com/setup.exe", "ab12"⟩
  installDir := ""
  skipInstall := false

/-- A macOS pipeline machine on which everything succeeds except that VSCode
is not found. -/
def c3MacEnv : MacEnv where
  homeDir := .ok "/Users/u"
  downloadResult := .ok "/tmp/rocq-bootstrap/rocq.dmg"
  shaOpen := .ok ()
  shaHash := .ok "ab12"
  mountResult := .ok "/Volumes/Rocq"
  findAppResult := .ok "/Volumes/Rocq/Rocq-Platform.app"
  applicationsWritable := true
  mkdirHomeAppsOk := true
  pathExists := fun _ => false
  rsyncOk := true
  cpOk := true
  unmountOk := true
  vsrocqtopResult := .ok "/Applications/Rocq-Platform.app/Contents/Resources/bin/vsrocqtop"
  findCodeResult := .error (.msg "code not found")
  extensionInstallOk := true
  workspaceCreateOk := .ok ()
  writeSettingsOk := true
  openWorkspaceOk := true

/-- The config going with `c3MacEnv`: reuse an existing installation. -/
def c3MacCfg : MacConfig where
  manifest := ⟨"stable", "9.0.0", "2025.08.1", ⟨"dmg", "https://example.com/rocq.dmg", "ab12"⟩⟩
  skipInstall := true
  existingApp := "/Applications/Rocq-Platform.app"

/-- A macOS machine where /Applications is writable and the destination
bundle already exists. -/
def c7Env : MacEnv where
  homeDir := .ok "/Users/u"
  downloadResult := .ok "/tmp/rocq-bootstrap/rocq.dmg"
  shaOpen := .ok ()
  shaHash := .ok "ab12"
  mountResult := .ok "/Volumes/Rocq"
  findAppResult := .ok "/Volumes/Rocq/Rocq-Platform.app"
  applicationsWritable := true
  mkdirHomeAppsOk := true
  pathExists := fun p => p == "/Applications/Rocq-Platform.app"
  rsyncOk := true
  cpOk := true
  unmountOk := true
  vsrocqtopResult := .ok "/Applications/Rocq-Platform.app/Contents/Resources/bin/vsrocqtop"
  findCodeResult := .ok "/usr/local/bin/code"
  extensionInstallOk := true
  workspaceCreateOk := .ok ()
  writeSettingsOk := true
  openWorkspaceOk := true

/-- A workspace environment where `test.v` already exists with user edits and
the other two templates are missing; all writes succeed. -/
def c10Env : WsEnv where
  fs := [("ws/test.v", "My edits")]
  templates := fun p =>
    if p == "embedded/templates/test.v" then some "T1"
    else if p == "embedded/templates/main.v" then some "T2"
    else if p == "embedded/templates/_RocqProject" then some "T3"
    else none
  mkdirOk := true
  writeOk := fun _ => true

/-- The filesystem `wsCreate c10Env "ws"` produces. -/
def c10Result : FakeFS :=
  [("ws/_RocqProject", "T3"), ("ws/main.v", "T2"), ("ws/test.v", "My edits")]

/-! ## Helper lemmas about the string primitives -/

theorem strExt {a b : String} (h : a.data = b.data) : a = b := by
  cases a; cases b; exact congrArg String.mk h

theorem takeWhile_append_dotfree (a rest : List Char) (ha : '.' ∉ a) :
    (a ++ '.' :: rest).takeWhile (fun c => c != '.') = a ∧
    (a ++ '.' :: rest).dropWhile (fun c => c != '.') = '.' :: rest := by
  induction a with
  | nil => constructor <;> simp [List.takeWhile, List.dropWhile]
  | cons c cs ih =>
    have hc : c ≠ '.' := by
      intro h
      exact ha (by simp [h])
    have hcs : '.' ∉ cs := fun h => ha (List.mem_cons_of_mem _ h)
    obtain ⟨h1, h2⟩ := ih hcs
    constructor
    · simpa [List.takeWhile_cons, hc] using h1
    · simpa [List.dropWhile_cons, hc] using h2

theorem splitNDot_three (a b c : String) (ha : '.' ∉ a.data) (hb : '.' ∉ b.data) :
    splitNDot (a ++ "." ++ b ++ "." ++ c) 3 = [a, b, c] := by
  have hdata : (a ++ "." ++ b ++ "." ++ c).data
      = a.data ++ '.' :: (b.data ++ '.' :: c.data) := by
    simp [String.data_append, List.append_assoc]
  obtain ⟨ta, da⟩ := takeWhile_append_dotfree a.data (b.data ++ '.' :: c.data) ha
  obtain ⟨tb, db⟩ := takeWhile_append_dotfree b.data c.data hb
  simp only [splitNDot, hdata, splitNCharsAux, ta, da, tb, db]
  simp only [List.map_cons, List.map_nil]

/-! ## Claims C8 and C9 -/

/-- C8: the opam switch name is a deterministic pure function of the release
identifier and the toolchain version's major.minor: for a well-formed version
`a.b.c` (with `a`, `b` dot-free) the name is the prefix `CP` joined by `.` to
the release identifier, then `~`, then `a.b`. -/
theorem C8_switch_name (a b c r : String) (ha : '.' ∉ a.data) (hb : '.' ∉ b.data) :
    SwitchName (a ++ "." ++ b ++ "." ++ c) r = "CP." ++ r ++ "~" ++ a ++ "." ++ b := by
  unfold SwitchName
  rw [splitNDot_three a b c ha hb]
  apply strExt
  simp [String.data_append, List.append_assoc]

/-- C8 witness: for toolchain version 9.0.0 and release 2025.08.1 the switch
name is `CP.2025.08.1~9.0`. -/
theorem C8_switch_name_witness :
    SwitchName "9.0.0" "2025.08.1" = "CP.2025.08.1~9.0" := by
  have h := C8_switch_name "9" "0" "0" "2025.08.1" (by decide) (by decide)
  have e1 : ("9" ++ "." ++ "0" ++ "." ++ "0" : String) = "9.0.0" := by decide
  have e2 : ("CP." ++ "2025.08.1" ++ "~" ++ "9" ++ "." ++ "0" : String)
      = "CP.2025.08.1~9.0" := by decide
  rw [e1, e2] at h
  exact h

/-- C9: checksum verification with the empty expected hash succeeds for every
file state (skip semantics) — even when the file cannot be opened or hashed. -/
theorem C9_verify_empty_hash (openRes : Except GoErr Unit)
    (hashRes : Except GoErr String) :
    VerifySHA256 openRes hashRes "" = .ok () := rfl

/-! ## Claim C1 (version-mismatch check) -/

/-- C1: per the spec's Scenario E, requesting toolchain 9.0.0 while the
installed binary reports 8.19.0 must abort the run with a fatal
version-mismatch error.  It does not: the final check of
install_rocq_linux_opam pipes the reported version into `grep -q "9.0"`,
and the pattern `9.0` — matched as a substring, with `.` a regex wildcard —
matches inside "8.19.0", so the run completes successfully even though the
installed major.minor (8.19) differs from the requested one (9.0).  (The Go
Linux pipeline performs no post-install version check at all.) -/
theorem C1_version_check_bypassed :
    exOk (installRocqLinuxOpam scenarioEEnv scenarioEInputs).1 = true
    ∧ scenarioEEnv.rocqPrintVersion = "8.19.0"
    ∧ scenarioEInputs.rocqVersion = "9.0.0"
    ∧ dropLastDotComponent scenarioEEnv.rocqPrintVersion ≠
        dropLastDotComponent scenarioEInputs.rocqVersion := by
  refine ⟨rfl, rfl, rfl, by decide⟩

/-! ## Claim C4 (manifest parsing) -/

/-- C4 counterexample: the macOS Parse ACCEPTS a manifest whose
platform/architecture asset entry carries an unexpected type tag, as long as
the URL is non-empty — so "fails whenever the entry has an unexpected type
tag" is false for the macOS parser. -/
theorem C4_unexpected_type_tag_accepted :
    macParse (some badTagManifestJson)
      = .ok ⟨"", "", "", ⟨"not-a-known-type", "https://example.com/x.dmg", ""⟩⟩ := rfl

/-! ## Claim C5 (opam bootstrap) -/

/-- C5 counterexample: on a machine where opam is absent from the search
path, the Go pipeline's ensureOpam fails immediately with a manual-install
message — no bootstrap script and no package-manager probe is attempted
(the trace is empty) — refuting the claim for the Go implementation of the
source-package-manager strategy. -/
theorem C5_go_ensureOpam_fails_immediately :
    ensureOpamGo opamAbsentEnvGo
      = (.error (.msg "opam not found in PATH. Please install opam: https://opam.ocaml.org/doc/Install.html"), []) := rfl

/-! ## Claim C6 (elevated installer) -/

/-- C6 counterexample: the command line RunInnoSetup builds contains no
silent flag and no no-restart flag — it is exactly `/SP-` (startup-prompt
suppression; the installer window is still shown) plus the target directory.
This refutes "its command line includes a silent/no-restart flag". -/
theorem C6_no_silent_flag :
    innoSetupArgList "C:\\Rocq-platform~9.0~2025.08"
      = ["/SP-", "/DIR=C:\\Rocq-platform~9.0~2025.08"]
    ∧ ∀ a ∈ innoSetupArgList "C:\\Rocq-platform~9.0~2025.08",
        a ∉ specSilentNoRestartFlags := by
  refine ⟨rfl, by decide⟩

/-- C4 (amended): manifest construction fails on malformed JSON and on a
missing platform/architecture asset entry, and on failure no manifest value
is produced (the result is an error); the Linux parser moreover accepts only
the "opam" type tag, while the macOS parser validates only that the asset
URL is non-empty and does not examine the type tag (see the counterexample). -/
theorem C4_parse_validation :
    exOk (macParse none) = false
    ∧ exOk (linParse none) = false
    ∧ exOk (macParse (some (.jobj []))) = false
    ∧ exOk (linParse (some (.jobj []))) = false
    ∧ (∀ j m, macParse (some j) = .ok m → m.MacOSARM64.URL ≠ "")
    ∧ (∀ j m, linParse (some j) = .ok m → m.LinuxX86_64.TypeTag = "opam") := by
  refine ⟨rfl, rfl, rfl, rfl, ?_, ?_⟩
  · intro j m h
    simp only [macParse] at h
    cases hd : decodeMacManifest j with
    | error e => rw [hd] at h; cases h
    | ok m0 =>
      simp only [hd] at h
      by_cases hu : m0.MacOSARM64.URL = ""
      · rw [if_pos hu] at h; cases h
      · rw [if_neg hu] at h
        cases h
        exact hu
  · intro j m h
    simp only [linParse] at h
    cases hd : decodeLinManifest j with
    | error e => rw [hd] at h; cases h
    | ok m0 =>
      simp only [hd] at h
      by_cases ht : m0.LinuxX86_64.TypeTag ≠ "opam"
      · rw [if_pos ht] at h; cases h
      · rw [if_neg ht] at h
        cases h
        exact not_ne_iff.mp ht

/-- C4 witness: a well-formed macOS manifest parses, and the theorem yields
that its asset URL is non-empty. -/
theorem C4_parse_validation_witness :
    macParse (some goodMacManifestJson)
      = .ok ⟨"stable", "9.0.0", "2025.08.1", ⟨"dmg", "https://example.com/rocq.dmg", "ab12"⟩⟩
    ∧ (⟨"stable", "9.0.0", "2025.08.1",
        ⟨"dmg", "https://example.com/rocq.dmg", "ab12"⟩⟩ : MacManifest).MacOSARM64.URL ≠ "" := by
  constructor
  · rfl
  · exact C4_parse_validation.2.2.2.2.1 goodMacManifestJson _ rfl

/-- Helper: any package-manager install event of ensure_opam_deps uses the
first system package manager found in probe order, on the missing packages. -/
theorem ensureOpamDeps_pkgInstall (env : ShEnv) (mgr : String) (pkgs : List String)
    (h : Ev.pkgInstall mgr pkgs ∈ (ensureOpamDeps env).2) :
    (firstMgr env).map (fun m => m.1) = some mgr ∧ pkgs = missingPkgs env := by
  unfold ensureOpamDeps at h
  by_cases hm : missingPkgs env = []
  · simp [hm] at h
  · by_cases hs : (!env.isRoot && !env.cmdPresent "sudo") = true
    · simp [hm, hs] at h
    · rcases hf : firstMgr env with _ | ⟨m, ok⟩
      · simp [hm, hs, hf] at h
      · cases ok
        · simp [hm, hs, hf] at h
          exact ⟨by simp [h.1], h.2⟩
        · simp [hm, hs, hf] at h
          exact ⟨by simp [h.1], h.2⟩

/-- C5 (amended): when the package manager is absent from the search path,
the SHELL strategy does not fail immediately: it resolves OS build
dependencies through the first system package manager found by probing
apt-get, dnf, yum, pacman, zypper in that order, runs the official opam
bootstrap script, and proceeds.  (The Go pipeline's ensureOpam instead fails
immediately with a manual-install message — see the counterexample.) -/
theorem C5_shell_bootstraps_opam (env : ShEnv)
    (hOpam : env.cmdPresent "opam" = false)
    (hCurl : env.cmdPresent "curl" = true)
    (hDeps : (ensureOpamDeps env).1 = .ok ())
    (hFetch : env.curlFetchOk = true)
    (hRun : env.bootstrapOk = true)
    (hAfter : env.opamAfterBootstrap = true) :
    (ensureOpamSh env).1 = .ok ()
    ∧ Ev.bootstrapRun ∈ (ensureOpamSh env).2
    ∧ (∀ mgr pkgs, Ev.pkgInstall mgr pkgs ∈ (ensureOpamSh env).2 →
        (firstMgr env).map (fun m => m.1) = some mgr ∧ pkgs = missingPkgs env) := by
  rcases hd : ensureOpamDeps env with ⟨r, devs⟩
  rw [hd] at hDeps
  simp only at hDeps
  subst hDeps
  have hrun : ensureOpamSh env = (.ok (), devs ++ [Ev.bootstrapRun]) := by
    unfold ensureOpamSh
    rw [hd]
    simp [hOpam, hCurl, hFetch, hRun, hAfter]
  refine ⟨by rw [hrun], by rw [hrun]; simp, ?_⟩
  intro mgr pkgs hmem
  rw [hrun] at hmem
  simp only [List.mem_append, List.mem_singleton] at hmem
  rcases hmem with hmem | hmem
  · exact ensureOpamDeps_pkgInstall env mgr pkgs (by rw [hd]; exact hmem)
  · cases hmem

/-- C5 witness: opam absent, build dependencies missing, dnf the first
available package manager — the shell strategy bootstraps and succeeds. -/
theorem C5_shell_bootstraps_opam_witness :
    (ensureOpamSh c5Env).1 = .ok ()
    ∧ Ev.bootstrapRun ∈ (ensureOpamSh c5Env).2
    ∧ (∀ mgr pkgs, Ev.pkgInstall mgr pkgs ∈ (ensureOpamSh c5Env).2 →
        (firstMgr c5Env).map (fun m => m.1) = some mgr ∧ pkgs = missingPkgs c5Env) :=
  C5_shell_bootstraps_opam c5Env rfl rfl rfl rfl rfl rfl

/-- C6 (amended): the elevated-installer strategy launches the installer via
ShellExecuteEx with the elevation verb "runas"; its command line is `/SP-`
(startup-prompt suppression — the installer window is shown, not silent)
together with an explicit `/DIR=` target-directory argument; when a process
handle is returned the strategy blocks on the elevated process, and a
nonzero exit code of that process makes the strategy fail with an error. -/
theorem C6_elevated_installer (env : ShellExecEnv) (exePath installDir : String)
    (hLaunch : env.shellExecuteOk = true)
    (hHandle : env.hProcess ≠ 0)
    (hWait : env.waitFailed = false)
    (hCode : env.getExitCodeOk = true) :
    Ev.shellExec "runas" exePath (joinSpace (innoSetupArgList installDir))
        ∈ (RunInnoSetup env exePath installDir).2
    ∧ "/SP-" ∈ innoSetupArgList installDir
    ∧ "/DIR=" ++ installDir ∈ innoSetupArgList installDir
    ∧ Ev.waitProcess ∈ (RunInnoSetup env exePath installDir).2
    ∧ (env.exitCode ≠ 0 → (RunInnoSetup env exePath installDir).1
        = .error (.msg ("installer exited with code " ++ toString env.exitCode)))
    ∧ (env.exitCode = 0 → (RunInnoSetup env exePath installDir).1 = .ok ()) := by
  by_cases hc : env.exitCode = 0 <;>
    simp [RunInnoSetup, shellExecuteAsAdmin, hLaunch, hHandle, hWait, hCode, hc,
      innoSetupArgList]

/-- C6 witness: a successful elevated launch whose process exits with code 5
is waited on and makes the strategy fail. -/
theorem C6_elevated_installer_witness :
    Ev.waitProcess ∈ (RunInnoSetup c6Env "setup.exe" "C:\\Rocq").2
    ∧ (RunInnoSetup c6Env "setup.exe" "C:\\Rocq").1
        = .error (.msg ("installer exited with code " ++ toString c6Env.exitCode)) := by
  have h := C6_elevated_installer c6Env "setup.exe" "C:\\Rocq" rfl (by decide) rfl rfl
  exact ⟨h.2.2.2.1, h.2.2.2.2.1 (by decide)⟩

/-! ## Claim C2 (checksum mismatch aborts the pipeline) -/

/-- Helper: a non-empty expected hash that differs from the computed digest
makes VerifySHA256 fail. -/
theorem verifySHA256_mismatch (openRes : Except GoErr Unit) (got expected : String)
    (hopen : openRes = .ok ())
    (hne : trimSpace expected ≠ "")
    (hbad : equalFold got (trimSpace expected) = false) :
    VerifySHA256 openRes (.ok got) expected
      = .error (.msg ("SHA256 mismatch: expected " ++ trimSpace expected ++ ", got " ++ got)) := by
  unfold VerifySHA256
  rw [if_neg hne, hopen]
  simp [hbad]

/-- Helper: on the macOS pipeline, a checksum mismatch aborts the run with an
error, no step beyond 2 is reported, and no install action is performed. -/
theorem macRun_checksum_abort (env : MacEnv) (cfg : MacConfig) (dmgPath got : String)
    (hskip : cfg.skipInstall = false)
    (hdl : env.downloadResult = .ok dmgPath)
    (hopen : env.shaOpen = .ok ())
    (hhash : env.shaHash = .ok got)
    (hne : trimSpace cfg.manifest.MacOSARM64.SHA256 ≠ "")
    (hbad : equalFold got (trimSpace cfg.manifest.MacOSARM64.SHA256) = false) :
    exOk (macRun env cfg).1 = false
    ∧ ∀ ev ∈ (macRun env cfg).2,
        (∀ n, stepIndex ev = some n → n ≤ 2) ∧ isInstallAction ev = false := by
  have hver := verifySHA256_mismatch env.shaOpen got cfg.manifest.MacOSARM64.SHA256
    hopen hne hbad
  rw [← hhash] at hver
  rcases hh : env.homeDir with e | home
  · constructor
    · simp [macRun, hh, exOk]
    · intro ev hev
      simp [macRun, hh] at hev
  · have hEq : macRun env cfg
        = (.error (.msg "checksum"),
           [Ev.step 1 "Downloading Rocq Platform DMG..." 0,
            Ev.download cfg.manifest.MacOSARM64.URL,
            Ev.step 2 "Verifying checksum..." 0]) := by
      simp [macRun, hh, hskip, hdl, hver]
    rw [hEq]
    refine ⟨rfl, ?_⟩
    intro ev hev
    simp only [List.mem_cons, List.not_mem_nil, or_false] at hev
    rcases hev with rfl | rfl | rfl
    · exact ⟨(by intro n hn; cases hn; omega), rfl⟩
    · exact ⟨(by intro n hn; cases hn), rfl⟩
    · exact ⟨(by intro n hn; cases hn; omega), rfl⟩

/-- Helper: on the windows pipeline, a checksum mismatch aborts the run with
an error, no step beyond 2 is reported, and no install action is performed. -/
theorem winRun_checksum_abort (env : WinEnv) (cfg : WinConfig) (exePath got : String)
    (hskip : cfg.skipInstall = false)
    (hnot : env.hasRocq (if cfg.installDir = "" then
        DefaultInstallDir cfg.manifest.RocqVersion cfg.manifest.PlatformRelease
      else cfg.installDir) = false)
    (hdl : env.downloadResult = .ok exePath)
    (hopen : env.shaOpen = .ok ())
    (hhash : env.shaHash = .ok got)
    (hne : trimSpace cfg.manifest.SHA256 ≠ "")
    (hbad : equalFold got (trimSpace cfg.manifest.SHA256) = false) :
    exOk (winRun env cfg).1 = false
    ∧ ∀ ev ∈ (winRun env cfg).2,
        (∀ n, stepIndex ev = some n → n ≤ 2) ∧ isInstallAction ev = false := by
  have hver := verifySHA256_mismatch env.shaOpen got cfg.manifest.SHA256 hopen hne hbad
  rw [← hhash] at hver
  rcases hh : env.homeDir with e | home
  · constructor
    · simp [winRun, hh, exOk]
    · intro ev hev
      simp [winRun, hh] at hev
  · have hEq : winRun env cfg
        = (.error (.msg "checksum"),
           [Ev.step 1 "Downloading Rocq Platform installer..." 0,
            Ev.download cfg.manifest.URL,
            Ev.step 2 "Verifying checksum..." 0]) := by
      simp [winRun, hh, hskip, hnot, hdl, hver]
    rw [hEq]
    refine ⟨rfl, ?_⟩
    intro ev hev
    simp only [List.mem_cons, List.not_mem_nil, or_false] at hev
    rcases hev with rfl | rfl | rfl
    · exact ⟨(by intro n hn; cases hn; omega), rfl⟩
    · exact ⟨(by intro n hn; cases hn), rfl⟩
    · exact ⟨(by intro n hn; cases hn; omega), rfl⟩

/-- C2: on both GUI pipelines (macOS and windows), when checksum verification
of the downloaded artifact fails — expected hash non-empty and different from
the file's digest — the run aborts at step 2 with an error: no step numbered
3 or higher is ever reported, no install-strategy action is performed, and no
Result is returned (the outcome is an error). -/
theorem C2_checksum_mismatch_aborts
    (menv : MacEnv) (mcfg : MacConfig) (mdmg mgot : String)
    (wenv : WinEnv) (wcfg : WinConfig) (wexe wgot : String)
    (hmskip : mcfg.skipInstall = false)
    (hmdl : menv.downloadResult = .ok mdmg)
    (hmopen : menv.shaOpen = .ok ())
    (hmhash : menv.shaHash = .ok mgot)
    (hmne : trimSpace mcfg.manifest.MacOSARM64.SHA256 ≠ "")
    (hmbad : equalFold mgot (trimSpace mcfg.manifest.MacOSARM64.SHA256) = false)
    (hwskip : wcfg.skipInstall = false)
    (hwnot : wenv.hasRocq (if wcfg.installDir = "" then
        DefaultInstallDir wcfg.manifest.RocqVersion wcfg.manifest.PlatformRelease
      else wcfg.installDir) = false)
    (hwdl : wenv.downloadResult = .ok wexe)
    (hwopen : wenv.shaOpen = .ok ())
    (hwhash : wenv.shaHash = .ok wgot)
    (hwne : trimSpace wcfg.manifest.SHA256 ≠ "")
    (hwbad : equalFold wgot (trimSpace wcfg.manifest.SHA256) = false) :
    exOk (macRun menv mcfg).1 = false
    ∧ (∀ ev ∈ (macRun menv mcfg).2,
        (∀ n, stepIndex ev = some n → n ≤ 2) ∧ isInstallAction ev = false)
    ∧ exOk (winRun wenv wcfg).1 = false
    ∧ (∀ ev ∈ (winRun wenv wcfg).2,
        (∀ n, stepIndex ev = some n → n ≤ 2) ∧ isInstallAction ev = false) := by
  obtain ⟨m1, m2⟩ := macRun_checksum_abort menv mcfg mdmg mgot
    hmskip hmdl hmopen hmhash hmne hmbad
  obtain ⟨w1, w2⟩ := winRun_checksum_abort wenv wcfg wexe wgot
    hwskip hwnot hwdl hwopen hwhash hwne hwbad
  exact ⟨m1, m2, w1, w2⟩

/-- C2 witness: a concrete mismatch (expected "ab12", got "deadbeef") on both
pipelines. -/
theorem C2_checksum_mismatch_aborts_witness :
    exOk (macRun c2MacEnv c2MacCfg).1 = false
    ∧ (∀ ev ∈ (macRun c2MacEnv c2MacCfg).2,
        (∀ n, stepIndex ev = some n → n ≤ 2) ∧ isInstallAction ev = false)
    ∧ exOk (winRun c2WinEnv c2WinCfg).1 = false
    ∧ (∀ ev ∈ (winRun c2WinEnv c2WinCfg).2,
        (∀ n, stepIndex ev = some n → n ≤ 2) ∧ isInstallAction ev = false) :=
  C2_checksum_mismatch_aborts c2MacEnv c2MacCfg "/tmp/rocq-bootstrap/rocq.dmg" "deadbeef"
    c2WinEnv c2WinCfg "C:\\Temp\\rocq-bootstrap\\setup.exe" "deadbeef"
    rfl rfl rfl rfl (by decide) (by decide)
    rfl rfl rfl rfl rfl (by decide) (by decide)

/-! ## Claim C3 (missing editor degrades, does not abort) -/

/-- Helper: the destination-directory probe emits only benign probe events. -/
theorem installAppDestDir_benign (env : MacEnv) :
    ∀ ev ∈ (installAppDestDir env).2, isBenignProbe ev = true := by
  intro ev hev
  unfold installAppDestDir at hev
  by_cases hw : env.applicationsWritable = true
  · simp [hw] at hev
    rcases hev with rfl | rfl <;> rfl
  · rcases hh : env.homeDir with e | home
    · simp [hw, hh] at hev
      subst hev
      rfl
    · by_cases hm : env.mkdirHomeAppsOk = true <;>
      · simp [hw, hh, hm] at hev
        rcases hev with rfl | rfl <;> rfl

/-- Helper: benign probe events are not progress callbacks, not copies, not
removals and not mounts. -/
theorem benign_shape (ev : Ev) (h : isBenignProbe ev = true) :
    stepIndex ev = none ∧ isCopyAction ev = false
    ∧ (∀ p, ev ≠ Ev.removeAllPath p) ∧ (∀ q, ev ≠ Ev.mount q) := by
  cases ev <;> simp_all [isBenignProbe, stepIndex, isCopyAction]

/-- Helper: InstallApp emits no progress-callback events. -/
theorem installApp_no_step (env : MacEnv) (s : String) (f : Bool) :
    ∀ ev ∈ (InstallApp env s f).2, stepIndex ev = none := by
  intro ev hev
  rcases hd : installAppDestDir env with ⟨rd, devs⟩
  have hdd : ∀ ev ∈ devs, stepIndex ev = none := by
    intro ev h
    exact (benign_shape ev (installAppDestDir_benign env ev (by rw [hd]; exact h))).1
  unfold InstallApp at hev
  rw [hd] at hev
  rcases rd with e | destDir
  · exact hdd ev hev
  · simp only at hev
    split at hev
    · exact hdd ev hev
    · split at hev
      · simp only [List.mem_append, List.mem_cons, List.not_mem_nil, or_false] at hev
        rcases hev with h | rfl | rfl
        · exact hdd ev h
        · rfl
        · rfl
      · split at hev <;>
        · simp only [List.mem_append, List.mem_cons, List.not_mem_nil, or_false] at hev
          rcases hev with (h | rfl | rfl) | rfl
          · exact hdd ev h
          · rfl
          · rfl
          · rfl

/-- Helper: when the editor lookup fails, macRunTail returns success with
VSCodeFound = false and reports steps 6 and 7 as skipped at fraction 1. -/
theorem macRunTail_editor_missing (env : MacEnv) (wd app : String) (ge : GoErr)
    (h : env.findCodeResult = .error ge) :
    (∃ vsp, (macRunTail env wd app).1 = .ok ⟨false, app, vsp⟩)
    ∧ Ev.step 6 "Skipped (VSCode not found)." 1 ∈ (macRunTail env wd app).2
    ∧ Ev.step 7 "Skipped (VSCode not found)." 1 ∈ (macRunTail env wd app).2 := by
  rcases hv : env.vsrocqtopResult with e | p
  · exact ⟨⟨"", by simp [macRunTail, h, hv]⟩,
      by simp [macRunTail, h, hv], by simp [macRunTail, h, hv]⟩
  · exact ⟨⟨p, by simp [macRunTail, h, hv]⟩,
      by simp [macRunTail, h, hv], by simp [macRunTail, h, hv]⟩

/-- C3: in every macOS pipeline run that reaches the step-5 editor check and
does not find the editor, steps 6 and 7 are still reported with the
"Skipped (VSCode not found)." label at fraction 1.0, the pipeline returns
success (no error), and the Result records VSCodeFound = false. -/
theorem C3_editor_missing_skips (env : MacEnv) (cfg : MacConfig) (ge : GoErr)
    (hcode : env.findCodeResult = .error ge)
    (hreach : Ev.step 5 "Checking for VSCode..." 0 ∈ (macRun env cfg).2) :
    (∃ app vsp, (macRun env cfg).1 = .ok ⟨false, app, vsp⟩)
    ∧ Ev.step 6 "Skipped (VSCode not found)." 1 ∈ (macRun env cfg).2
    ∧ Ev.step 7 "Skipped (VSCode not found)." 1 ∈ (macRun env cfg).2 := by
  rcases hh : env.homeDir with e | home
  · simp [macRun, hh] at hreach
  · by_cases hskip : cfg.skipInstall = true ∧ ¬cfg.existingApp = ""
    · rcases htl : macRunTail env (home ++ "/rocq-workspace") cfg.existingApp with ⟨r, tevs⟩
      obtain ⟨⟨vsp, hr⟩, h6, h7⟩ :=
        macRunTail_editor_missing env (home ++ "/rocq-workspace") cfg.existingApp ge hcode
      rw [htl] at hr h6 h7
      have hEq : macRun env cfg
          = (r, [Ev.step 1 "Rocq Platform already installed, skipping download." 1,
                 Ev.step 2 "Skipped (already installed)." 1,
                 Ev.step 3 "Skipped (already installed)." 1] ++ tevs) := by
        simp [macRun, hh, hskip.1, hskip.2, htl]
      rw [hEq]
      exact ⟨⟨cfg.existingApp, vsp, hr⟩, by simp [h6], by simp [h7]⟩
    · rcases hdl : env.downloadResult with e1 | dmgPath
      · simp [macRun, hh, hskip, hdl] at hreach
      · rcases hver : VerifySHA256 env.shaOpen env.shaHash cfg.manifest.MacOSARM64.SHA256
          with e2 | ⟨⟩
        · simp [macRun, hh, hskip, hdl, hver] at hreach
        · rcases hmt : env.mountResult with e3 | mp
          · simp [macRun, hh, hskip, hdl, hver, hmt] at hreach
          · rcases hfa : env.findAppResult with e4 | appSrc
            · simp [macRun, hh, hskip, hdl, hver, hmt, hfa] at hreach
            · rcases hia : InstallApp env appSrc false with ⟨ri, ievs⟩
              have hns := installApp_no_step env appSrc false
              rw [hia] at hns
              rcases ri with e5 | installedApp
              · simp [macRun, hh, hskip, hdl, hver, hmt, hfa, hia] at hreach
                exact absurd (hns _ hreach) (by simp [stepIndex])
              · rcases htl : macRunTail env (home ++ "/rocq-workspace") installedApp
                  with ⟨r, tevs⟩
                obtain ⟨⟨vsp, hr⟩, h6, h7⟩ :=
                  macRunTail_editor_missing env (home ++ "/rocq-workspace") installedApp ge hcode
                rw [htl] at hr h6 h7
                have hEq : macRun env cfg
                    = (r, ([Ev.step 1 "Downloading Rocq Platform DMG..." 0,
                        Ev.download cfg.manifest.MacOSARM64.URL,
                        Ev.step 2 "Verifying checksum..." 0,
                        Ev.step 2 "Checksum verified." 1,
                        Ev.step 3 "Installing Rocq Platform..." 0,
                        Ev.mount dmgPath,
                        Ev.step 3 ("Copying " ++ baseName appSrc ++ " to Applications...") (1/2)]
                       ++ ievs
                       ++ [Ev.unmount mp, Ev.step 3 "Rocq Platform installed." 1])
                       ++ tevs) := by
                  simp [macRun, hh, hskip, hdl, hver, hmt, hfa, hia, htl]
                rw [hEq]
                exact ⟨⟨installedApp, vsp, hr⟩, by simp [h6], by simp [h7]⟩

/-- C3 witness: reusing an existing installation with VSCode absent — steps
6 and 7 report skipped at fraction 1, the run succeeds, VSCodeFound=false. -/
theorem C3_editor_missing_skips_witness :
    (∃ app vsp, (macRun c3MacEnv c3MacCfg).1 = .ok ⟨false, app, vsp⟩)
    ∧ Ev.step 6 "Skipped (VSCode not found)." 1 ∈ (macRun c3MacEnv c3MacCfg).2
    ∧ Ev.step 7 "Skipped (VSCode not found)." 1 ∈ (macRun c3MacEnv c3MacCfg).2 :=
  C3_editor_missing_skips c3MacEnv c3MacCfg (.msg "code not found") rfl (by decide)

/-! ## Claim C7 (idempotent unforced install, image always unmounted) -/

/-- Helper: all events of macRunTail come from the step 4–7 repertoire. -/
theorem macRunTail_evs (env : MacEnv) (wd app : String) :
    ∀ ev ∈ (macRunTail env wd app).2, isTailEv ev = true := by
  unfold macRunTail
  rcases env.vsrocqtopResult with e | p
  · rcases env.findCodeResult with e2 | cb
    · simp [isTailEv, List.forall_mem_cons, List.forall_mem_append]
    · rcases env.workspaceCreateOk with e3 | ⟨⟩
      · simp [isTailEv, List.forall_mem_cons, List.forall_mem_append]
      · simp [isTailEv, List.forall_mem_cons, List.forall_mem_append]
  · rcases env.findCodeResult with e2 | cb
    · simp [isTailEv, List.forall_mem_cons, List.forall_mem_append]
    · rcases env.workspaceCreateOk with e3 | ⟨⟩
      · simp [isTailEv, List.forall_mem_cons, List.forall_mem_append]
      · by_cases hp : p = "" <;>
          by_cases hw : env.writeSettingsOk = true <;>
          simp [hp, hw, isTailEv, List.forall_mem_cons, List.forall_mem_append]

/-- Helper: InstallApp with force=false and an existing destination performs
no copy: it returns the pre-existing path with only the destination probe's
events. -/
theorem installApp_skips (env : MacEnv) (appSrc d : String)
    (h : (installAppDestDir env).1 = .ok d)
    (he : env.pathExists (d ++ "/" ++ baseName appSrc) = true) :
    InstallApp env appSrc false
      = (.ok (d ++ "/" ++ baseName appSrc), (installAppDestDir env).2) := by
  unfold InstallApp
  rcases hd : installAppDestDir env with ⟨rd, devs⟩
  rw [hd] at h
  simp only at h
  subst h
  simp [he]

/-- Helper: every control path of the macOS pipeline that records a mount of
the image, with the mount succeeding at mount point mp, also records an
unmount of mp. -/
theorem macRun_mount_unmount (env : MacEnv) (cfg : MacConfig) (dmg mp : String)
    (hm : Ev.mount dmg ∈ (macRun env cfg).2)
    (hmt : env.mountResult = .ok mp) :
    Ev.unmount mp ∈ (macRun env cfg).2 := by
  rcases hh : env.homeDir with e | home
  · simp [macRun, hh] at hm
  · by_cases hskip : cfg.skipInstall = true ∧ ¬cfg.existingApp = ""
    · rcases htl : macRunTail env (home ++ "/rocq-workspace") cfg.existingApp with ⟨r, tevs⟩
      have htv : ∀ ev ∈ tevs, isTailEv ev = true := by
        intro ev hev
        exact macRunTail_evs env (home ++ "/rocq-workspace") cfg.existingApp ev
          (by rw [htl]; exact hev)
      simp [macRun, hh, hskip.1, hskip.2, htl] at hm
      exact absurd (htv _ hm) (by simp [isTailEv])
    · rcases hdl : env.downloadResult with e1 | dmgPath
      · simp [macRun, hh, hskip, hdl] at hm
      · rcases hver : VerifySHA256 env.shaOpen env.shaHash cfg.manifest.MacOSARM64.SHA256
          with e2 | ⟨⟩
        · simp [macRun, hh, hskip, hdl, hver] at hm
        · rcases hfa : env.findAppResult with e4 | appSrc
          · simp [macRun, hh, hskip, hdl, hver, hmt, hfa]
          · rcases hia : InstallApp env appSrc false with ⟨ri, ievs⟩
            rcases ri with e5 | installedApp
            · simp [macRun, hh, hskip, hdl, hver, hmt, hfa, hia]
            · rcases htl : macRunTail env (home ++ "/rocq-workspace") installedApp
                with ⟨r, tevs⟩
              simp [macRun, hh, hskip, hdl, hver, hmt, hfa, hia, htl]

/-- C7: for the disk-image strategy with force = false, an existing
destination short-circuits the copy: the pre-existing path is returned
unchanged, no copy and no removal of the destination happens, a second run
under the same conditions returns the same location, and on every pipeline
path a successfully mounted image is unmounted afterwards. -/
theorem C7_install_idempotent (env1 env2 : MacEnv) (appSrc d : String)
    (h1 : (installAppDestDir env1).1 = .ok d)
    (h2 : (installAppDestDir env2).1 = .ok d)
    (he1 : env1.pathExists (d ++ "/" ++ baseName appSrc) = true)
    (he2 : env2.pathExists (d ++ "/" ++ baseName appSrc) = true) :
    (InstallApp env1 appSrc false).1 = .ok (d ++ "/" ++ baseName appSrc)
    ∧ (InstallApp env2 appSrc false).1 = (InstallApp env1 appSrc false).1
    ∧ (∀ ev ∈ (InstallApp env1 appSrc false).2,
        isCopyAction ev = false ∧ ev ≠ Ev.removeAllPath (d ++ "/" ++ baseName appSrc))
    ∧ (∀ env cfg dmg mp, Ev.mount dmg ∈ (macRun env cfg).2 →
        env.mountResult = .ok mp → Ev.unmount mp ∈ (macRun env cfg).2) := by
  have hs1 := installApp_skips env1 appSrc d h1 he1
  have hs2 := installApp_skips env2 appSrc d h2 he2
  refine ⟨by rw [hs1], by rw [hs1, hs2], ?_, macRun_mount_unmount⟩
  intro ev hev
  rw [hs1] at hev
  have hb := benign_shape ev (installAppDestDir_benign env1 ev hev)
  exact ⟨hb.2.1, hb.2.2.1 _⟩

/-- C7 witness: destination bundle already present in /Applications — the
strategy returns the pre-existing path and performs no copy. -/
theorem C7_install_idempotent_witness :
    (InstallApp c7Env "/Volumes/Rocq/Rocq-Platform.app" false).1
      = .ok "/Applications/Rocq-Platform.app"
    ∧ (∀ ev ∈ (InstallApp c7Env "/Volumes/Rocq/Rocq-Platform.app" false).2,
        isCopyAction ev = false) := by
  have h := C7_install_idempotent c7Env c7Env "/Volumes/Rocq/Rocq-Platform.app"
    "/Applications" rfl rfl (by decide) (by decide)
  exact ⟨h.1.trans (congrArg Except.ok (by decide)),
    fun ev hev => (h.2.2.1 ev hev).1⟩

/-! ## Claim C10 (workspace creation never overwrites) -/

/-- Helper: lookup after a set. -/
theorem fsGet_set (fs : FakeFS) (p v q : String) :
    fsGet (fsSet fs p v) q = if q = p then some v else fsGet fs q := by
  by_cases h : q = p
  · simp [fsGet, fsSet, List.find?, h]
  · have : (p == q) = false := by
      simp [beq_iff_eq]
      exact fun hc => h hc.symm
    simp [fsGet, fsSet, List.find?, this, h]

/-- Helper: left-cancellation of string concatenation. -/
theorem strConcat_inj (pre a b : String) (h : pre ++ a = pre ++ b) : a = b := by
  have h2 : pre.data ++ a.data = pre.data ++ b.data := by
    have := congrArg String.data h
    simpa [String.data_append] using this
  exact strExt (List.append_cancel_left h2)

/-- Helper: the Create loop leaves every pre-existing file unchanged. -/
theorem wsCreateLoop_preserves (env : WsEnv) (dir : String) :
    ∀ (l : List (String × String)) (fs fs' : FakeFS),
      wsCreateLoop env dir l fs = .ok fs' →
      ∀ p, (fsGet fs p).isSome = true → fsGet fs' p = fsGet fs p := by
  intro l
  induction l with
  | nil =>
    intro fs fs' h p hp
    cases h
    rfl
  | cons hd tl ih =>
    obtain ⟨emb, dst⟩ := hd
    intro fs fs' h p hp
    unfold wsCreateLoop at h
    by_cases hex : (fsGet fs (dir ++ "/" ++ dst)).isSome = true
    · rw [if_pos hex] at h
      exact ih fs fs' h p hp
    · rw [if_neg hex] at h
      split at h
      · cases h
      · next data ht =>
        by_cases hw : env.writeOk (dir ++ "/" ++ dst) = true
        · rw [if_pos hw] at h
          have hne : p ≠ dir ++ "/" ++ dst := by
            intro he
            rw [he] at hp
            exact hex hp
          have hp1 : (fsGet (fsSet fs (dir ++ "/" ++ dst) data) p).isSome = true := by
            rw [fsGet_set, if_neg hne]
            exact hp
          have := ih _ fs' h p hp1
          rw [this, fsGet_set, if_neg hne]
        · rw [if_neg hw] at h
          cases h

/-- Helper: the Create loop writes each missing template file (destinations
pairwise distinct) with its template contents. -/
theorem wsCreateLoop_writes (env : WsEnv) (dir : String) :
    ∀ (l : List (String × String)) (fs fs' : FakeFS),
      (l.map (fun e => e.2)).Nodup →
      wsCreateLoop env dir l fs = .ok fs' →
      ∀ emb dst, (emb, dst) ∈ l → fsGet fs (dir ++ "/" ++ dst) = none →
        fsGet fs' (dir ++ "/" ++ dst) = env.templates emb := by
  intro l
  induction l with
  | nil =>
    intro fs fs' _ h emb dst hmem
    cases hmem
  | cons hd tl ih =>
    obtain ⟨emb0, dst0⟩ := hd
    intro fs fs' hnd h emb dst hmem hnone
    have hnd' : (tl.map (fun e => e.2)).Nodup := (List.nodup_cons.mp hnd).2
    unfold wsCreateLoop at h
    rcases List.mem_cons.mp hmem with heq | hmem'
    · obtain ⟨rfl, rfl⟩ : emb = emb0 ∧ dst = dst0 :=
        ⟨congrArg Prod.fst heq, congrArg Prod.snd heq⟩
      rw [if_neg (by rw [hnone]; simp)] at h
      split at h
      · cases h
      · next data ht =>
        by_cases hw : env.writeOk (dir ++ "/" ++ dst) = true
        · rw [if_pos hw] at h
          have hp1 : (fsGet (fsSet fs (dir ++ "/" ++ dst) data) (dir ++ "/" ++ dst)).isSome
              = true := by
            rw [fsGet_set, if_pos rfl]
            rfl
          have hpr := wsCreateLoop_preserves env dir tl _ fs' h (dir ++ "/" ++ dst) hp1
          rw [hpr, fsGet_set, if_pos rfl, ht]
        · rw [if_neg hw] at h
          cases h
    · have hdst : dst ≠ dst0 := by
        intro hc
        have hin : dst ∈ tl.map (fun e => e.2) :=
          List.mem_map.mpr ⟨(emb, dst), hmem', rfl⟩
        rw [hc] at hin
        exact (List.nodup_cons.mp hnd).1 hin
      by_cases hex : (fsGet fs (dir ++ "/" ++ dst0)).isSome = true
      · rw [if_pos hex] at h
        exact ih fs fs' hnd' h emb dst hmem' hnone
      · rw [if_neg hex] at h
        split at h
        · cases h
        · next data ht =>
          by_cases hw : env.writeOk (dir ++ "/" ++ dst0) = true
          · rw [if_pos hw] at h
            have hpath : dir ++ "/" ++ dst ≠ dir ++ "/" ++ dst0 := by
              intro hc
              exact hdst (strConcat_inj (dir ++ "/") dst dst0 hc)
            have hnone' : fsGet (fsSet fs (dir ++ "/" ++ dst0) data) (dir ++ "/" ++ dst)
                = none := by
              rw [fsGet_set, if_neg hpath]
              exact hnone
            exact ih _ fs' hnd' h emb dst hmem' hnone'
          · rw [if_neg hw] at h
            cases h

/-- C10: workspace creation never overwrites an existing file — on every
successful Create run, each path that already had contents keeps exactly
those contents, and each template whose destination was missing is written
with the template's contents. -/
theorem C10_workspace_preserves_files (env : WsEnv) (dir : String) (fs2 : FakeFS)
    (h : wsCreate env dir = .ok fs2) :
    (∀ p, (fsGet env.fs p).isSome = true → fsGet fs2 p = fsGet env.fs p)
    ∧ (∀ emb dst, (emb, dst) ∈ wsFiles → fsGet env.fs (dir ++ "/" ++ dst) = none →
        fsGet fs2 (dir ++ "/" ++ dst) = env.templates emb) := by
  unfold wsCreate at h
  by_cases hm : env.mkdirOk = true
  · rw [if_neg (by simp [hm])] at h
    exact ⟨wsCreateLoop_preserves env dir wsFiles env.fs fs2 h,
      fun emb dst hmem =>
        wsCreateLoop_writes env dir wsFiles env.fs fs2 (by decide) h emb dst hmem⟩
  · rw [if_pos (by simp [hm])] at h
    cases h

/-- C10 witness: `test.v` exists with user edits and is preserved; `main.v`
was missing and gets its template contents. -/
theorem C10_workspace_preserves_files_witness :
    wsCreate c10Env "ws" = .ok c10Result
    ∧ fsGet c10Result "ws/test.v" = some "My edits"
    ∧ fsGet c10Result "ws/main.v" = some "T2" := by
  have h := C10_workspace_preserves_files c10Env "ws" c10Result rfl
  refine ⟨rfl, ?_, ?_⟩
  · exact (h.1 "ws/test.v" (by decide)).trans (by decide)
  · exact (h.2 "embedded/templates/main.v" "main.v" (by decide) (by decide)).trans (by decide)
